import Mathlib

/-!
Verification development for the adaptive time-series forecasting pipeline
(`app/services/custom_data_service.py`, `app/services/forecast_service.py`,
`app/models/arima_model.py`).

The Python code is shallowly embedded:

* calendar timestamps become a `Date` structure (year, month, day) with
  proleptic-Gregorian day counting (the standard civil-from-days algorithm);
* the pandas calls the pipeline makes (`infer_freq`, `date_range`, `asfreq`,
  `median` of timestamp gaps) are embedded for the frequency grids this
  pipeline actually produces (daily, anchored-weekly, month-start, year-start);
* the statsmodels fit is an oracle parameter (`fitO`) since fitting is an
  external solver; the fitted object is a record of its forecast outputs,
  whose confidence-interval structure is modelled from the spec (mean plus or
  minus z times the forecast standard error, variance cumulative in the
  psi-weights);
* the matplotlib rendering backend and the pickle loader are oracle
  parameters (`Except` values);
* Python dictionaries `{success, error, predictions, ...}` become structures.
-/

/-! ## Calendar: dates, day counts, weekday, calendar stepping -/

/-- Calendar date (year, month, day), mirroring the date part of a pandas
timestamp.  The pipeline only ever manipulates whole dates. -/
structure Date where
  y : Int
  m : Int
  d : Int
deriving DecidableEq

/-- Gregorian leap-year rule. -/
def isLeap (y : Int) : Prop :=
  (y % 4 = 0 ∧ y % 100 ≠ 0) ∨ y % 400 = 0

instance (y : Int) : Decidable (isLeap y) := by
  unfold isLeap; infer_instance

/-- Number of days of month `m` in year `y`. -/
def daysInMonth (y m : Int) : Int :=
  if m = 2 then (if isLeap y then 29 else 28)
  else if m = 4 ∨ m = 6 ∨ m = 9 ∨ m = 11 then 30 else 31

/-- A structurally valid calendar date. -/
def ValidDate (dt : Date) : Prop :=
  1 ≤ dt.m ∧ dt.m ≤ 12 ∧ 1 ≤ dt.d ∧ dt.d ≤ daysInMonth dt.y dt.m

instance (dt : Date) : Decidable (ValidDate dt) := by
  unfold ValidDate; infer_instance

/-- Days since 1970-01-01 of a civil date (standard civil-from-days algorithm,
written with floor division). -/
def daysFromCivil (dt : Date) : Int :=
  let y : Int := if dt.m ≤ 2 then dt.y - 1 else dt.y
  let era : Int := y / 400
  let yoe : Int := y - 400 * era
  let mp : Int := if dt.m ≤ 2 then dt.m + 9 else dt.m - 3
  let doy : Int := (153 * mp + 2) / 5 + dt.d - 1
  let doe : Int := 365 * yoe + yoe / 4 - yoe / 100 + doy
  146097 * era + doe - 719468

/-- Inverse of `daysFromCivil`: civil date of a day number.  Used only to
embed pandas converting an integer cell to a timestamp (nanoseconds since
epoch); no lemma depends on it. -/
def civilFromDays (z0 : Int) : Date :=
  let z := z0 + 719468
  let era := z / 146097
  let doe := z - 146097 * era
  let yoe := (doe - doe / 1460 + doe / 36524 - doe / 146096) / 365
  let y := yoe + 400 * era
  let doy := doe - (365 * yoe + yoe / 4 - yoe / 100)
  let mp := (5 * doy + 2) / 153
  let dd := doy - (153 * mp + 2) / 5 + 1
  let mm := mp + (if mp < 10 then 3 else -9)
  ⟨if mm ≤ 2 then y + 1 else y, mm, dd⟩

/-- Next calendar day. -/
def succDay (dt : Date) : Date :=
  if dt.d < daysInMonth dt.y dt.m then ⟨dt.y, dt.m, dt.d + 1⟩
  else if dt.m < 12 then ⟨dt.y, dt.m + 1, 1⟩
  else ⟨dt.y + 1, 1, 1⟩

/-- Add `k` calendar days (`pd.Timedelta(days=k)` on whole dates). -/
def addDaysN (dt : Date) (k : Nat) : Date :=
  succDay^[k] dt

/-- Weekday with Monday = 0 .. Sunday = 6 (Python `weekday()` convention);
1970-01-01 was a Thursday. -/
def wd (dt : Date) : Int :=
  (daysFromCivil dt + 3) % 7

/-- Strict chronological order on dates (lexicographic on year, month, day;
this is calendar order for valid dates). -/
def dlt (a b : Date) : Prop :=
  a.y < b.y ∨ (a.y = b.y ∧ (a.m < b.m ∨ (a.m = b.m ∧ a.d < b.d)))

instance (a b : Date) : Decidable (dlt a b) := by
  unfold dlt; infer_instance

/-- Non-strict chronological order on dates. -/
def dle (a b : Date) : Prop :=
  dlt a b ∨ a = b

instance (a b : Date) : Decidable (dle a b) := by
  unfold dle; infer_instance

/-! ## Frequency grids

`Grid` is the calendar grid a pandas frequency string denotes: `daily` for
`D`, `weekly a` for the `W-XXX` family (anchored on weekday `a`, `W` itself
being `W-SUN`), `monthStart` for `MS` and `yearStart` for the `YS` family.
`rollForward`, `gridNext` and the list generators embed how
`pd.date_range(start, ...)` rolls its start onto the grid and steps along
it, and how `asfreq` builds the regularization calendar. -/

inductive Grid where
  | daily : Grid
  | weekly (anchor : Int) : Grid
  | monthStart : Grid
  | yearStart : Grid
deriving DecidableEq

/-- First day of the month after the month of `dt`. -/
def nextMS (dt : Date) : Date :=
  if dt.m = 12 then ⟨dt.y + 1, 1, 1⟩ else ⟨dt.y, dt.m + 1, 1⟩

/-- January 1 of the year after the year of `dt`. -/
def nextYS (dt : Date) : Date :=
  ⟨dt.y + 1, 1, 1⟩

/-- Days from `dt` forward to the next weekday-`a` day (0 if `dt` already is
one). -/
def weekRoll (a : Int) (dt : Date) : Nat :=
  ((a - wd dt) % 7).toNat

/-- Membership of `dt` in a frequency grid. -/
def onGrid (g : Grid) (dt : Date) : Prop :=
  match g with
  | .daily => True
  | .weekly a => wd dt = a
  | .monthStart => dt.d = 1
  | .yearStart => dt.m = 1 ∧ dt.d = 1

instance (g : Grid) (dt : Date) : Decidable (onGrid g dt) := by
  unfold onGrid; cases g <;> infer_instance

/-- Smallest grid point that is at or after `dt` (how `pd.date_range` treats
an off-grid start). -/
def rollForward (g : Grid) (dt : Date) : Date :=
  match g with
  | .daily => dt
  | .weekly a => addDaysN dt (weekRoll a dt)
  | .monthStart => if dt.d = 1 then dt else nextMS dt
  | .yearStart => if dt.m = 1 ∧ dt.d = 1 then dt else nextYS dt

/-- Smallest grid point strictly after `dt`. -/
def gridNext (g : Grid) (dt : Date) : Date :=
  match g with
  | .daily => succDay dt
  | .weekly a => addDaysN dt (if weekRoll a dt = 0 then 7 else weekRoll a dt)
  | .monthStart => nextMS dt
  | .yearStart => nextYS dt

/-- First `n` grid points starting exactly at `d`. -/
def gridList (g : Grid) (d : Date) : Nat → List Date
  | 0 => []
  | n + 1 => d :: gridList g (gridNext g d) n

/-- Embedding of `pd.date_range(start=start, periods=n, freq=g)`. -/
def dateRangeP (g : Grid) (start : Date) (n : Nat) : List Date :=
  gridList g (rollForward g start) n

/-- Fuel-bounded generator of the grid points from `d` up to `last`. -/
def gridListTo (g : Grid) (last : Date) : Date → Nat → List Date
  | _, 0 => []
  | d, n + 1 => if dle d last then d :: gridListTo g last (gridNext g d) n else []

/-- Embedding of `pd.date_range(start=first, end=last, freq=g)`, the index
`asfreq` regularizes onto.  The fuel (day gap plus one) is enough for every
grid at least as coarse as daily. -/
def dateRangeSpan (g : Grid) (first last : Date) : List Date :=
  gridListTo g last (rollForward g first) ((daysFromCivil last - daysFromCivil first).toNat + 1)

/-- Embedding of `pd.DateOffset(months=1)`: next calendar month, day-of-month
clipped to the target month length. -/
def addMonth1 (dt : Date) : Date :=
  let y2 : Int := if dt.m = 12 then dt.y + 1 else dt.y
  let m2 : Int := if dt.m = 12 then 1 else dt.m + 1
  ⟨y2, m2, min dt.d (daysInMonth y2 m2)⟩

/-- Embedding of `pd.DateOffset(years=1)`: next calendar year, day-of-month
clipped (February 29 becomes February 28). -/
def addYear1 (dt : Date) : Date :=
  ⟨dt.y + 1, dt.m, min dt.d (daysInMonth (dt.y + 1) dt.m)⟩

/-! ## Frequency strings

The pipeline manipulates pandas frequency codes as plain strings: the
heuristic fallback produces exactly `D`, `W`, `MS`, `YS`
(`custom_data_service.py` lines 144-151), while a successful
`pd.infer_freq` produces `D`, an anchored weekly code `W-MON` .. `W-SUN`,
`MS`, or the anchored yearly code `YS-JAN`. -/

/-- Grid denoted by a frequency string.  Strings this pipeline never
produces are mapped to the daily grid (they are unreachable). -/
def gridOf (f : String) : Grid :=
  if f = "D" then .daily
  else if f = "W" ∨ f = "W-SUN" then .weekly 6
  else if f = "W-MON" then .weekly 0
  else if f = "W-TUE" then .weekly 1
  else if f = "W-WED" then .weekly 2
  else if f = "W-THU" then .weekly 3
  else if f = "W-FRI" then .weekly 4
  else if f = "W-SAT" then .weekly 5
  else if f = "MS" then .monthStart
  else if f = "YS" ∨ f = "YS-JAN" then .yearStart
  else .daily

/-- Anchored weekly frequency code of a weekday index (Monday = 0). -/
def wdName (w : Int) : String :=
  if w = 0 then "W-MON"
  else if w = 1 then "W-TUE"
  else if w = 2 then "W-WED"
  else if w = 3 then "W-THU"
  else if w = 4 then "W-FRI"
  else if w = 5 then "W-SAT"
  else "W-SUN"

/-- Day gaps between consecutive timestamps
(`index.to_series().diff().dropna()`, in days). -/
def gapsDays : List Date → List Int
  | [] => []
  | [_] => []
  | a :: b :: t => (daysFromCivil b - daysFromCivil a) :: gapsDays (b :: t)

/-- Insert into a list sorted by `le`. -/
def insSorted (le : α → α → Bool) (x : α) : List α → List α
  | [] => [x]
  | h :: t => if le h x then h :: insSorted le x t else x :: h :: t

/-- Insertion sort by `le`. -/
def insSort (le : α → α → Bool) : List α → List α
  | [] => []
  | h :: t => insSorted le h (insSort le t)

/-- Median day gap as pandas computes it, floored to whole days: the sorted
middle element for an odd count, the floor of the mean of the two middle
elements for an even count (`Timedelta.days` floors a positive timedelta). -/
def medianFloorDays (l : List Int) : Int :=
  let s := insSort (fun a b => decide (a ≤ b)) l
  let n := s.length
  if n % 2 = 1 then s.getD (n / 2) 0
  else (s.getD (n / 2 - 1) 0 + s.getD (n / 2) 0) / 2

/-- Month-start chain check: consecutive first-of-month dates. -/
def monthChainB : List Date → Bool
  | [] => true
  | [a] => decide (a.d = 1)
  | a :: b :: t => decide (a.d = 1) && decide (b = nextMS a) && monthChainB (b :: t)

/-- Year-start chain check: consecutive January-1 dates. -/
def yearChainB : List Date → Bool
  | [] => true
  | [a] => decide (a.m = 1 ∧ a.d = 1)
  | a :: b :: t => decide (a.m = 1 ∧ a.d = 1) && decide (b = nextYS a) && yearChainB (b :: t)

/-- Model of the external call `pd.infer_freq(index)`, restricted to the
regular spacings this pipeline can produce and later consume: exact daily
spacing gives `D`, exact 7-day spacing gives the weekday-anchored code
(`W-SUN` etc.), consecutive month starts give `MS`, consecutive January
firsts give `YS-JAN`; anything else gives `None`.  (Real pandas knows more
frequencies, e.g. quarterly or month-end; those patterns are outside the
scope of this model and of the claims below.) -/
def pdInferFreq (ds : List Date) : Option String :=
  if ds.length < 3 then none
  else if (gapsDays ds).all (fun g => g == 1) then some "D"
  else if (gapsDays ds).all (fun g => g == 7) then
    some (wdName (wd (ds.headD ⟨1970, 1, 1⟩)))
  else if monthChainB ds then some "MS"
  else if yearChainB ds then some "YS-JAN"
  else none

/-- Median-gap fallback classification
(`custom_data_service.py` lines 140-151). -/
def medianClassify (ds : List Date) : String :=
  let g := medianFloorDays (gapsDays ds)
  if g ≤ 1 then "D"
  else if g ≤ 7 then "W"
  else if g ≤ 31 then "MS"
  else "YS"

/-- Frequency detection of `train_model_and_predict`
(`custom_data_service.py` lines 137-151): `pd.infer_freq` first, the
median-gap heuristic only if that returns `None`. -/
def inferredFreq (ds : List Date) : String :=
  match pdInferFreq ds with
  | some f => f
  | none => medianClassify ds

/-- Frequency codes that `inferredFreq` can produce. -/
def freqCodes : List String :=
  ["D", "W", "MS", "YS", "W-MON", "W-TUE", "W-WED", "W-THU", "W-FRI", "W-SAT",
    "W-SUN", "YS-JAN"]

/-! ## Time series and regularization -/

/-- A time series: timestamped rational values, kept in index order. -/
abbrev Series := List (Date × ℚ)

/-- Last timestamp of a series (`self.data.index[-1]`). -/
def lastDate (s : Series) : Date :=
  ((s.getLast?).map (fun p => p.1)).getD ⟨1970, 1, 1⟩

/-- Adjacent-duplicate check on a sorted index; pandas `reindex`/`asfreq`
raise on an index with duplicate labels. -/
def hasAdjDup : List Date → Bool
  | [] => false
  | [_] => false
  | a :: b :: t => decide (a = b) || hasAdjDup (b :: t)

/-- Forward-fill lookup: the value at the last original timestamp at or
before `g` (reindex with `method='ffill'`). -/
def ffillAt (s : Series) (g : Date) : ℚ :=
  (((s.filter (fun p => decide (dle p.1 g))).getLast?).map (fun p => p.2)).getD 0

/-- Embedding of `self.data.asfreq(freq, method='ffill')`
(`custom_data_service.py` line 154): reindex onto the frequency calendar
between the first and last timestamp, forward-filling gaps; fails on a
duplicate index as pandas does. -/
def regularize (f : String) (s : Series) : Except String Series :=
  if hasAdjDup (s.map (fun p => p.1)) then
    .error "cannot reindex on an axis with duplicate labels"
  else
    match s with
    | [] => .ok []
    | (d0, _) :: _ =>
      .ok ((dateRangeSpan (gridOf f) d0 (lastDate s)).map (fun g => (g, ffillAt s g)))

/-! ## Fitted model and forecast output

The statsmodels fit result is opaque to the repository code, which only
calls `forecast(steps)` and `get_forecast(steps).conf_int()`.  `FittedSM`
records those outputs: the point forecast `mean`, and the
confidence-interval inputs.  Modelled from the spec: the glossary defines
the interval as "a per-step two-sided band derived from the model's
estimated forecast-error variance", and section 4.4 states the variance
grows recursively with horizon; accordingly `SMWf` ties the standard error
`se` to the cumulative psi-weight variance, and the band is
mean plus or minus `zq` times `se` with `zq` the 95 percent normal
quantile. -/

structure FittedSM where
  mean : Nat → ℚ
  sigma2 : ℚ
  psi : Nat → ℚ
  se : Nat → ℚ

/-- Cumulative forecast-error variance after `i + 1` steps:
sigma2 times the sum of the first `i + 1` squared psi-weights. -/
def cumVar (mf : FittedSM) (i : Nat) : ℚ :=
  mf.sigma2 * (((List.range (i + 1)).map (fun j => mf.psi j ^ 2)).sum)

/-- Two-sided 95 percent normal quantile used by `conf_int()`. -/
def zq : ℚ := 196 / 100

/-- Well-formedness of a fitted model, modelled from the spec: nonnegative
innovation variance, nonnegative standard errors, and the squared standard
error equal to the cumulative psi-weight variance. -/
structure SMWf (mf : FittedSM) : Prop where
  sigma2_nonneg : 0 ≤ mf.sigma2
  se_nonneg : ∀ i, 0 ≤ mf.se i
  se_sq : ∀ i, mf.se i ^ 2 = cumVar mf i

/-- Forecast output block: the `predictions` dictionary of
`custom_data_service.py` lines 187-192 and `arima_model.py` lines 77-82
(dates kept as dates rather than strftime strings). -/
structure Preds where
  dates : List Date
  values : List ℚ
  lower_ci : List ℚ
  upper_ci : List ℚ
deriving DecidableEq

/-- Assembly of the forecast lists from a fitted model: `forecast(steps)`
gives the point values, `get_forecast(steps).conf_int()` the two interval
columns. -/
def mkPreds (mf : FittedSM) (steps : Nat) (fd : List Date) : Preds :=
  { dates := fd
  , values := (List.range steps).map mf.mean
  , lower_ci := (List.range steps).map (fun i => mf.mean i - zq * mf.se i)
  , upper_ci := (List.range steps).map (fun i => mf.mean i + zq * mf.se i) }

/-! ## Model selection and the upload-path pipeline -/

/-- SARIMAX order arguments. -/
structure SpecOrd where
  order : Nat × Nat × Nat
  seasonal : Option (Nat × Nat × Nat × Nat)
deriving DecidableEq

/-- Adaptive order selection of `train_model_and_predict`
(`custom_data_service.py` lines 156-166): always `order=(1, 1, 1)`; with at
least 24 observations additionally
`seasonal_order=(1, 1, 1, min(12, len(data) // 2))`, otherwise no seasonal
component. -/
def specFor (n : Nat) : SpecOrd :=
  if 24 ≤ n then ⟨(1, 1, 1), some (1, 1, 1, min 12 (n / 2))⟩
  else ⟨(1, 1, 1), none⟩

/-- Start date of the future range (`custom_data_service.py` lines 177-184):
one `Timedelta` day for `D`, one `Timedelta` week for `W`, one `DateOffset`
month for `MS`, otherwise one `DateOffset` year. -/
def unitAfter (f : String) (last : Date) : Date :=
  if f = "D" then addDaysN last 1
  else if f = "W" then addDaysN last 7
  else if f = "MS" then addMonth1 last
  else addYear1 last

/-- Future timestamps (`custom_data_service.py` lines 175-184):
`pd.date_range(start=last + offset, periods=steps, freq=freq)` with the
offset chosen by the same `if freq == ...` chain. -/
def futureDates (f : String) (last : Date) (steps : Nat) : List Date :=
  dateRangeP (gridOf f) (unitAfter f last) steps

/-- Mutable state of `CustomDataForecastService`: the single
`self.data` / `self.model` slot. -/
structure SvcState where
  data : Option Series
  model : Option FittedSM

/-- Result dictionary of `train_model_and_predict`. -/
structure TrainResult where
  success : Bool
  error : Option String
  predictions : Option Preds
  histDates : List Date

/-- Embedding of `CustomDataForecastService.train_model_and_predict`
(`custom_data_service.py` lines 120-227).  The statsmodels fit is the
oracle `fitO`; `pd.infer_freq` raising on fewer than 3 dates is the
outer-except branch; the `self.data = self.data.asfreq(...)` reassignment
happens before the fit is attempted, and `self.model` is assigned after a
successful fit. -/
def trainPredict (fitO : SpecOrd → Series → Except String FittedSM)
    (st : SvcState) (steps : Nat) : TrainResult × SvcState :=
  match st.data with
  | none =>
    ({ success := false
     , error := some "Aucune donnee chargee. Veuillez d abord uploader un fichier CSV."
     , predictions := none, histDates := [] }, st)
  | some s =>
    if s.length < 3 then
      ({ success := false
       , error := some "Erreur lors de la prediction: Need at least 3 dates to infer frequency"
       , predictions := none, histDates := [] }, st)
    else
      let f := inferredFreq (s.map (fun p => p.1))
      match regularize f s with
      | .error e =>
        ({ success := false, error := some ("Erreur lors de la prediction: " ++ e)
         , predictions := none, histDates := [] }, st)
      | .ok rs =>
        let st1 : SvcState := { st with data := some rs }
        match fitO (specFor rs.length) rs with
        | .error e =>
          ({ success := false
           , error := some ("Erreur lors de l entrainement du modele: " ++ e)
           , predictions := none, histDates := [] }, st1)
        | .ok mf =>
          let st2 : SvcState := { st1 with model := some mf }
          ({ success := true, error := none
           , predictions := some (mkPreds mf steps (futureDates f (lastDate rs) steps))
           , histDates := rs.map (fun p => p.1) }, st2)

/-! ## Bundled-model facade (`arima_model.py`, `forecast_service.py`) -/

/-- State of `ARIMAModel`: the deserialized fitted model and series. -/
structure ARIMASt where
  model : Option FittedSM
  data : Option Series

/-- Embedding of `ARIMAModel.load_model` (`arima_model.py` lines 24-41):
the pickle loads are an oracle; any failure leaves both slots `None`. -/
def loadModel (o : Except String (FittedSM × Series)) : ARIMASt :=
  match o with
  | .ok (mf, s) => { model := some mf, data := some s }
  | .error _ => { model := none, data := none }

/-- Embedding of `ARIMAModel.predict` (`arima_model.py` lines 43-84),
threaded through the object state to make mutation (or its absence)
explicit: the method only reads `self.model` and `self.data` and raises
`ValueError` when the model is not loaded (the unloaded-data access error
is folded into the same error channel).  Future dates use
`pd.date_range(start=last + DateOffset(months=1), periods=steps,
freq='MS')`. -/
def predictSt (st : ARIMASt) (steps : Nat) : Except String Preds × ARIMASt :=
  match st.model, st.data with
  | some mf, some s =>
    (.ok (mkPreds mf steps (futureDates "MS" (lastDate s) steps)), st)
  | _, _ => (.error "Modele non charge", st)

/-- Result dictionary of `ForecastService.get_forecast`. -/
structure FcstResult where
  success : Bool
  error : Option String
  predictions : Option Preds

/-- Embedding of `ForecastService.get_forecast`
(`forecast_service.py` lines 12-41): any exception from `predict` is
recovered into `{success: false, error}`. -/
def getForecastSvc (st : ARIMASt) (steps : Nat) : FcstResult :=
  match (predictSt st steps).1 with
  | .ok p => { success := true, error := none, predictions := some p }
  | .error e => { success := false, error := some e, predictions := none }

/-- Result of `ForecastService.get_model_status`. -/
structure StatusResult where
  success : Bool
  modelLoaded : Bool

/-- Embedding of `ForecastService.get_model_status`
(`forecast_service.py` lines 69-87). -/
def getModelStatus (st : ARIMASt) : StatusResult :=
  { success := true, modelLoaded := st.model.isSome }

/-- Embedding of `ARIMAModel.generate_plot` (`arima_model.py` lines
98-136): raises when the data is not loaded, otherwise returns whatever
the matplotlib backend (the `render` oracle) produces — it has no
exception handler of its own. -/
def genPlotARIMA (st : ARIMASt) (render : Except String String) :
    Except String String :=
  match st.data with
  | none => .error "Donnees non chargees"
  | some _ => render

/-- Result dictionary of `ForecastService.get_forecast_with_plot`. -/
structure FcstResultP where
  success : Bool
  error : Option String
  predictions : Option Preds
  plot : Option String

/-- Embedding of `ForecastService.get_forecast_with_plot`
(`forecast_service.py` lines 43-67): on a successful forecast the plot is
generated inside the same `try`, so a plotting exception falls into the
`except` branch which returns `{success: false, error, plot: None}`. -/
def getForecastWithPlot (st : ARIMASt) (steps : Nat)
    (render : Except String String) : FcstResultP :=
  let r := getForecastSvc st steps
  if r.success then
    match genPlotARIMA st render with
    | .ok img =>
      { success := r.success, error := r.error, predictions := r.predictions
      , plot := some img }
    | .error e =>
      { success := false, error := some e, predictions := none, plot := none }
  else
    { success := r.success, error := r.error, predictions := r.predictions
    , plot := none }

/-- Embedding of `CustomDataForecastService.generate_plot`
(`custom_data_service.py` lines 229-270): the whole body is wrapped in
`try/except`, a rendering failure degrades to the empty string. -/
def customGeneratePlot (render : Except String String) : String :=
  match render with
  | .ok s => s
  | .error _ => ""

/-! ## Uploaded tables and `validate_and_process_csv` -/

/-- A parsed CSV cell; a string cell that parses as a date is `dateStr`,
any other string is `textStr`, an empty cell is `blank` (pandas `NaN`). -/
inductive Cell where
  | num (v : ℚ) : Cell
  | dateStr (d : Date) : Cell
  | textStr (s : String) : Cell
  | blank : Cell
deriving DecidableEq

/-- A named column of cells. -/
structure RawCol where
  name : String
  cells : List Cell
deriving DecidableEq

/-- A parsed table (`pd.read_csv` output): ordered named columns. -/
structure RawTable where
  cols : List RawCol
deriving DecidableEq

/-- Row count (`data.shape[0]`); columns of a parsed CSV have equal
length, so the first column is measured. -/
def nrows (t : RawTable) : Nat :=
  match t.cols with
  | [] => 0
  | c :: _ => c.cells.length

/-- Lower-cased character list of a string. -/
def lowerChars (s : String) : List Char :=
  s.toList.map Char.toLower

/-- Contiguous-segment membership: `p` occurs inside `l`
(Python `in` on strings). -/
def hasSeg (p : List Char) : List Char → Bool
  | [] => p.isEmpty
  | c :: t => p.isPrefixOf (c :: t) || hasSeg p t

/-- Keyword test of the schema scan
(`custom_data_service.py` line 57): case-insensitive substring match
against the fixed lexicon. -/
def kwMatch (name : String) : Bool :=
  ["date", "time", "month", "year", "day"].any
    (fun k => hasSeg k.toList (lowerChars name))

/-- Numeric-dtype test (`pd.api.types.is_numeric_dtype`): every cell is a
number or missing (a column with strings has object dtype). -/
def numericDtype (c : RawCol) : Bool :=
  c.cells.all (fun x =>
    match x with
    | .num _ => true
    | .blank => true
    | _ => false)

/-- One step of the schema-inference loop
(`custom_data_service.py` lines 55-62): a keyword match overwrites the
date column; otherwise (`elif`) the first numeric column is retained as
the value column. -/
def inferColsAcc (acc : Option String × Option String) (c : RawCol) :
    Option String × Option String :=
  if kwMatch c.name then (some c.name, acc.2)
  else if numericDtype c then
    (acc.1, if acc.2.isNone then some c.name else acc.2)
  else acc

/-- Schema inference (`custom_data_service.py` lines 51-68): the column
loop followed by the fallbacks to the first and second column. -/
def inferCols (t : RawTable) : String × String :=
  let acc := t.cols.foldl inferColsAcc (none, none)
  (acc.1.getD ((t.cols.headD ⟨"", []⟩).name),
   acc.2.getD ((t.cols.getD 1 ⟨"", []⟩).name))

/-- Cell-level `pd.to_datetime`: dates pass through, a missing value stays
missing (`NaT`), a number is nanoseconds since the epoch, any other string
raises. -/
def toDateCell : Cell → Except String (Option Date)
  | .num v => .ok (some (civilFromDays ((v / 86400000000000).floor)))
  | .dateStr d => .ok (some d)
  | .textStr s => .error s
  | .blank => .ok none

/-- Cell-level `pd.to_numeric`: numbers pass through, a missing value
stays missing (`NaN`), any string raises. -/
def toNumCell : Cell → Except String (Option ℚ)
  | .num v => .ok (some v)
  | .blank => .ok none
  | .dateStr _ => .error "date"
  | .textStr s => .error s

/-- Cells of the column named `nm` (`data[nm]`). -/
def colCells (t : RawTable) (nm : String) : List Cell :=
  ((t.cols.find? (fun c => c.name == nm)).map (fun c => c.cells)).getD []

/-- Conversion and cleaning steps of `validate_and_process_csv`
(`custom_data_service.py` lines 70-89): convert the date column
(failure gives the date error message), convert the value column
(failure gives the numeric error message), drop rows with a missing
date or value, sort by date. -/
def cleanedRows (t : RawTable) : Except String (List (Date × ℚ)) :=
  let dnm := (inferCols t).1
  let vnm := (inferCols t).2
  match (colCells t dnm).mapM toDateCell with
  | .error _ => .error ("Impossible de convertir la colonne " ++ dnm ++ " en date")
  | .ok ds =>
    match (colCells t vnm).mapM toNumCell with
    | .error _ =>
      .error ("Impossible de convertir la colonne " ++ vnm ++ " en valeurs numeriques")
    | .ok vs =>
      .ok (insSort (fun a b => decide (dle a.1 b.1))
        ((ds.zip vs).filterMap (fun p =>
          match p with
          | (some d, some v) => some (d, v)
          | _ => none)))

/-- Result dictionary of `validate_and_process_csv` (the success payload
fields that no claim touches are omitted). -/
structure ValResult where
  success : Bool
  error : Option String
deriving DecidableEq

/-- Embedding of `CustomDataForecastService.validate_and_process_csv`
(`custom_data_service.py` lines 23-118): the column-count and row-count
gates, schema inference, conversion and cleaning, the post-cleaning
row-count gate, and only then the assignment to `self.data`.  The method
never touches `self.model`. -/
def validateCSV (t : RawTable) (st : SvcState) : ValResult × SvcState :=
  if t.cols.length < 2 then
    ({ success := false
     , error := some "Le fichier CSV doit contenir au moins 2 colonnes (Date, Valeur)" }, st)
  else if nrows t < 10 then
    ({ success := false
     , error := some "Le fichier CSV doit contenir au moins 10 lignes de donnees" }, st)
  else
    match cleanedRows t with
    | .error e => ({ success := false, error := some e }, st)
    | .ok rows =>
      if rows.length < 10 then
        ({ success := false
         , error := some "Pas assez de donnees valides apres nettoyage (minimum 10 points)" }, st)
      else ({ success := true, error := none }, { st with data := some rows })

/-! ## Concrete fixtures used by witnesses and counterexamples -/

/-- Ten consecutive Sundays (an exactly weekly series, as `asfreq('W')`
would produce). -/
def sundays10 : Series :=
  [(⟨2020, 1, 5⟩, 1), (⟨2020, 1, 12⟩, 2), (⟨2020, 1, 19⟩, 3), (⟨2020, 1, 26⟩, 4),
   (⟨2020, 2, 2⟩, 5), (⟨2020, 2, 9⟩, 6), (⟨2020, 2, 16⟩, 7), (⟨2020, 2, 23⟩, 8),
   (⟨2020, 3, 1⟩, 9), (⟨2020, 3, 8⟩, 10)]

/-- A trivial fitted model: zero forecasts, zero psi-weights, zero
standard errors. -/
def m0 : FittedSM :=
  { mean := fun _ => 0, sigma2 := 1, psi := fun _ => 0, se := fun _ => 0 }

/-- A fit oracle that always succeeds with `m0`. -/
def okFit : SpecOrd → Series → Except String FittedSM := fun _ _ => .ok m0

/-- A fit oracle that always fails (a solver convergence failure). -/
def failFit : SpecOrd → Series → Except String FittedSM :=
  fun _ _ => .error "LinAlgError"

/-- Ten daily observations with January 6 missing: an irregular series the
heuristic classifies as daily, whose regularization inserts the missing
day by forward fill. -/
def dailyGap10 : Series :=
  [(⟨2020, 1, 1⟩, 1), (⟨2020, 1, 2⟩, 2), (⟨2020, 1, 3⟩, 3), (⟨2020, 1, 4⟩, 4),
   (⟨2020, 1, 5⟩, 5), (⟨2020, 1, 7⟩, 6), (⟨2020, 1, 8⟩, 7), (⟨2020, 1, 9⟩, 8),
   (⟨2020, 1, 10⟩, 9), (⟨2020, 1, 11⟩, 10)]

/-- The regularization of `dailyGap10` onto the daily calendar: eleven
days, January 6 forward-filled with the January 5 value. -/
def dailyGap10Reg : Series :=
  [(⟨2020, 1, 1⟩, 1), (⟨2020, 1, 2⟩, 2), (⟨2020, 1, 3⟩, 3), (⟨2020, 1, 4⟩, 4),
   (⟨2020, 1, 5⟩, 5), (⟨2020, 1, 6⟩, 5), (⟨2020, 1, 7⟩, 6), (⟨2020, 1, 8⟩, 7),
   (⟨2020, 1, 9⟩, 8), (⟨2020, 1, 10⟩, 9), (⟨2020, 1, 11⟩, 10)]

/-- An irregular series (gaps of 3, 2 and 4 days; median gap 3). -/
def irregular4 : List Date :=
  [⟨2020, 1, 1⟩, ⟨2020, 1, 4⟩, ⟨2020, 1, 6⟩, ⟨2020, 1, 10⟩]

/-- Ten date cells for table fixtures. -/
def dateCells10 : List Cell :=
  [.dateStr ⟨2020, 1, 1⟩, .dateStr ⟨2020, 2, 1⟩, .dateStr ⟨2020, 3, 1⟩,
   .dateStr ⟨2020, 4, 1⟩, .dateStr ⟨2020, 5, 1⟩, .dateStr ⟨2020, 6, 1⟩,
   .dateStr ⟨2020, 7, 1⟩, .dateStr ⟨2020, 8, 1⟩, .dateStr ⟨2020, 9, 1⟩,
   .dateStr ⟨2020, 10, 1⟩]

/-- Ten numeric cells for table fixtures. -/
def numCells10 : List Cell :=
  [.num 1, .num 2, .num 3, .num 4, .num 5, .num 6, .num 7, .num 8, .num 9,
   .num 10]

/-- A date-named, date-valued column. -/
def colDate10 : RawCol := ⟨"date", dateCells10⟩

/-- A numeric column with a keyword-free name. -/
def colSales10 : RawCol := ⟨"sales", numCells10⟩

/-- A text column whose name contains the keyword `day`. -/
def colDay2 : RawCol :=
  ⟨"day2", [.textStr "a", .textStr "b", .textStr "c", .textStr "d", .textStr "e",
    .textStr "f", .textStr "g", .textStr "h", .textStr "i", .textStr "j"]⟩

/-- The counterexample table for schema inference: column 1 is date-like,
column 2 is numeric, and a later column name also matches the lexicon. -/
def t0C4 : RawTable := ⟨[colDate10, colSales10, colDay2]⟩

/-- An eight-row table (too few rows). -/
def t8rows : RawTable :=
  ⟨[⟨"date", dateCells10.take 8⟩, ⟨"sales", numCells10.take 8⟩]⟩

/-! ## Lemmas -/

@[simp] theorem Date.mk_y (a b c : Int) : (Date.mk a b c).y = a := rfl

@[simp] theorem Date.mk_m (a b c : Int) : (Date.mk a b c).m = b := rfl

@[simp] theorem Date.mk_d (a b c : Int) : (Date.mk a b c).d = c := rfl

theorem daysInMonth_pos (y m : Int) : 1 ≤ daysInMonth y m := by
  unfold daysInMonth; split <;> split <;> omega

theorem valid_succDay (dt : Date) (h : ValidDate dt) : ValidDate (succDay dt) := by
  obtain ⟨y, m, d⟩ := dt
  obtain ⟨h1, h2, h3, h4⟩ := h
  simp only [Date.mk_y, Date.mk_m, Date.mk_d] at h1 h2 h3 h4
  have p1 := daysInMonth_pos y (m + 1)
  have p2 := daysInMonth_pos (y + 1) 1
  simp only [succDay, ValidDate, Date.mk_y, Date.mk_m, Date.mk_d]
  split_ifs <;> simp only [Date.mk_y, Date.mk_m, Date.mk_d] <;>
    exact ⟨by omega, by omega, by omega, by omega⟩

set_option maxHeartbeats 800000 in
theorem daysFromCivil_succDay (dt : Date) (h : ValidDate dt) :
    daysFromCivil (succDay dt) = daysFromCivil dt + 1 := by
  obtain ⟨y, m, d⟩ := dt
  obtain ⟨h1, h2, h3, h4⟩ := h
  simp only [Date.mk_y, Date.mk_m, Date.mk_d] at h1 h2 h3 h4
  simp only [succDay, Date.mk_y, Date.mk_m, Date.mk_d]
  split_ifs with hlt hm
  · simp only [daysFromCivil, Date.mk_y, Date.mk_m, Date.mk_d]
    split_ifs <;> omega
  · have hd : d = daysInMonth y m := by omega
    subst hd
    simp only [daysInMonth, isLeap] at *
    simp only [daysFromCivil, Date.mk_y, Date.mk_m, Date.mk_d]
    interval_cases m <;> split_ifs at * <;> omega
  · have hm12 : m = 12 := by omega
    subst hm12
    have hdim : daysInMonth y 12 = 31 := by norm_num [daysInMonth]
    have hd : d = 31 := by omega
    subst hd
    simp only [daysFromCivil, Date.mk_y, Date.mk_m, Date.mk_d]
    split_ifs <;> omega

theorem valid_addDaysN (dt : Date) (k : Nat) (h : ValidDate dt) :
    ValidDate (addDaysN dt k) := by
  induction k generalizing dt with
  | zero => exact h
  | succ n ih =>
    rw [addDaysN, Function.iterate_succ_apply]
    exact ih (succDay dt) (valid_succDay dt h)

theorem daysFromCivil_addDaysN (dt : Date) (k : Nat) (h : ValidDate dt) :
    daysFromCivil (addDaysN dt k) = daysFromCivil dt + k := by
  induction k generalizing dt with
  | zero => simp [addDaysN]
  | succ n ih =>
    rw [addDaysN, Function.iterate_succ_apply]
    rw [show succDay^[n] (succDay dt) = addDaysN (succDay dt) n from rfl]
    rw [ih (succDay dt) (valid_succDay dt h), daysFromCivil_succDay dt h]
    push_cast
    ring

theorem wd_addDaysN (dt : Date) (k : Nat) (h : ValidDate dt) :
    wd (addDaysN dt k) = (wd dt + k) % 7 := by
  unfold wd
  rw [daysFromCivil_addDaysN dt k h]
  omega

theorem wd_bounds (dt : Date) : 0 ≤ wd dt ∧ wd dt < 7 := by
  unfold wd; omega

theorem succDay_dlt (dt : Date) : dlt dt (succDay dt) := by
  obtain ⟨y, m, d⟩ := dt
  simp only [succDay, Date.mk_y, Date.mk_m, Date.mk_d]
  split_ifs <;>
    simp only [dlt, Date.mk_y, Date.mk_m, Date.mk_d, true_and, and_true] <;> omega

theorem dlt_trans (a b c : Date) (h1 : dlt a b) (h2 : dlt b c) : dlt a c := by
  obtain ⟨ay, am, ad⟩ := a; obtain ⟨by2, bm, bd⟩ := b; obtain ⟨cy, cm, cd⟩ := c
  simp only [dlt, Date.mk_y, Date.mk_m, Date.mk_d, true_and, and_true] at *
  omega

theorem addDaysN_dlt (dt : Date) (k : Nat) (hk : 1 ≤ k) : dlt dt (addDaysN dt k) := by
  induction k with
  | zero => omega
  | succ n ih =>
    rw [addDaysN, Function.iterate_succ_apply']
    rcases Nat.eq_or_lt_of_le hk with h | h
    · have hn : n = 0 := by omega
      subst hn
      exact succDay_dlt dt
    · have h1 : 1 ≤ n := by omega
      exact dlt_trans _ _ _ (ih h1) (succDay_dlt (addDaysN dt n))

theorem gridList_length (g : Grid) (d : Date) (n : Nat) :
    (gridList g d n).length = n := by
  induction n generalizing d with
  | zero => rfl
  | succ k ih => simp [gridList, ih]

theorem gridList_getD (g : Grid) (d x : Date) (n i : Nat) (h : i < n) :
    (gridList g d n).getD i x = (gridNext g)^[i] d := by
  induction n generalizing d i with
  | zero => omega
  | succ k ih =>
    cases i with
    | zero => rfl
    | succ j =>
      have hj : j < k := by omega
      simp only [gridList, List.getD_cons_succ]
      rw [ih (gridNext g d) j hj, Function.iterate_succ_apply]

theorem rollForward_onGrid (g : Grid) (dt : Date) (h : onGrid g dt) :
    rollForward g dt = dt := by
  cases g with
  | daily => rfl
  | weekly a =>
    simp only [onGrid] at h
    simp only [rollForward, weekRoll, h]
    simp [addDaysN]
  | monthStart =>
    simp only [onGrid] at h
    simp [rollForward, h]
  | yearStart =>
    simp only [onGrid] at h
    simp [rollForward, h]

theorem addMonth1_of_monthStart (dt : Date) (h : dt.d = 1) :
    addMonth1 dt = nextMS dt := by
  obtain ⟨y, m, d⟩ := dt
  simp only [Date.mk_d] at h
  subst h
  have p1 := daysInMonth_pos y (m + 1)
  have p2 := daysInMonth_pos (y + 1) 1
  simp only [addMonth1, nextMS, Date.mk_y, Date.mk_m, Date.mk_d]
  split_ifs <;> rw [Date.mk.injEq] <;> exact ⟨rfl, rfl, by omega⟩

theorem addYear1_of_yearStart (dt : Date) (h : dt.m = 1 ∧ dt.d = 1) :
    addYear1 dt = nextYS dt := by
  obtain ⟨y, m, d⟩ := dt
  simp only [Date.mk_m, Date.mk_d] at h
  obtain ⟨hm, hd⟩ := h
  subst hm; subst hd
  have p := daysInMonth_pos (y + 1) 1
  simp only [addYear1, nextYS, Date.mk_y, Date.mk_m, Date.mk_d]
  rw [Date.mk.injEq]
  exact ⟨rfl, rfl, by omega⟩

theorem nextMS_onGrid (dt : Date) : onGrid .monthStart (nextMS dt) := by
  simp only [nextMS, onGrid]
  split_ifs <;> rfl

theorem nextYS_onGrid (dt : Date) : onGrid .yearStart (nextYS dt) := by
  exact ⟨rfl, rfl⟩

theorem nextMS_dlt (dt : Date) (h2 : dt.m ≤ 12) : dlt dt (nextMS dt) := by
  obtain ⟨y, m, d⟩ := dt
  simp only [Date.mk_m] at h2
  simp only [nextMS, Date.mk_m]
  split_ifs with h <;>
    simp only [dlt, Date.mk_y, Date.mk_m, Date.mk_d, true_and, and_true] <;> omega

theorem nextYS_dlt (dt : Date) : dlt dt (nextYS dt) := by
  obtain ⟨y, m, d⟩ := dt
  simp only [nextYS, dlt, Date.mk_y, Date.mk_m, Date.mk_d]
  omega

theorem gridNext_weekly_onGrid (a : Int) (dt : Date) (hv : ValidDate dt)
    (ha : 0 ≤ a ∧ a < 7) (h : onGrid (.weekly a) dt) :
    onGrid (.weekly a) (gridNext (.weekly a) dt) := by
  simp only [onGrid] at h ⊢
  have h7 : (if weekRoll a dt = 0 then 7 else weekRoll a dt) = 7 := by
    simp only [weekRoll, h]
    split_ifs <;> omega
  simp only [gridNext, h7]
  rw [wd_addDaysN dt 7 hv, h]
  omega

theorem gridNext_onGrid (g : Grid) (dt : Date) (hv : ValidDate dt)
    (ha : ∀ a : Int, g = .weekly a → 0 ≤ a ∧ a < 7) (h : onGrid g dt) :
    onGrid g (gridNext g dt) := by
  cases g with
  | daily => trivial
  | weekly a => exact gridNext_weekly_onGrid a dt hv (ha a rfl) h
  | monthStart => exact nextMS_onGrid dt
  | yearStart => exact nextYS_onGrid dt

theorem gridNext_dlt (g : Grid) (dt : Date) (hv : ValidDate dt) :
    dlt dt (gridNext g dt) := by
  cases g with
  | daily => exact succDay_dlt dt
  | weekly a =>
    simp only [gridNext]
    split_ifs with h
    · exact addDaysN_dlt dt 7 (by omega)
    · exact addDaysN_dlt dt _ (by omega)
  | monthStart => exact nextMS_dlt dt hv.2.1
  | yearStart => exact nextYS_dlt dt

theorem wdName_mem (w : Int) : wdName w ∈ freqCodes := by
  unfold wdName freqCodes
  split_ifs <;> simp

theorem pdInferFreq_mem (ds : List Date) (f : String) (h : pdInferFreq ds = some f) :
    f ∈ freqCodes := by
  unfold pdInferFreq at h
  split_ifs at h <;> simp only [Option.some.injEq] at h <;> try simp_all
  · subst h; simp [freqCodes]
  · subst h; exact wdName_mem _
  · subst h; simp [freqCodes]
  · subst h; simp [freqCodes]

theorem medianClassify_mem (ds : List Date) : medianClassify ds ∈ freqCodes := by
  dsimp only [medianClassify, freqCodes]
  split_ifs <;> simp

theorem inferredFreq_mem (ds : List Date) : inferredFreq ds ∈ freqCodes := by
  unfold inferredFreq
  cases h : pdInferFreq ds with
  | none => exact medianClassify_mem ds
  | some f => exact pdInferFreq_mem ds f h

theorem dateRangeP_length (g : Grid) (start : Date) (n : Nat) :
    (dateRangeP g start n).length = n := by
  unfold dateRangeP
  exact gridList_length g _ n

theorem dateRangeP_headD (g : Grid) (start x : Date) (n : Nat)
    (hg : onGrid g start) (hn : 0 < n) :
    (dateRangeP g start n).headD x = start := by
  unfold dateRangeP
  rw [rollForward_onGrid g start hg]
  cases n with
  | zero => omega
  | succ k => rfl

theorem dateRangeP_chain (g : Grid) (start x : Date) (n i : Nat)
    (hg : onGrid g start) (h : i + 1 < n) :
    (dateRangeP g start n).getD (i + 1) x
      = gridNext g ((dateRangeP g start n).getD i x) := by
  unfold dateRangeP
  rw [rollForward_onGrid g start hg]
  rw [gridList_getD g start x n (i + 1) h, gridList_getD g start x n i (by omega)]
  rw [Function.iterate_succ_apply']

theorem range_map_getD (fn : Nat → ℚ) (n i : Nat) (h : i < n) :
    (((List.range n).map fn).getD i 0) = fn i := by
  rw [List.getD_eq_getElem?_getD, List.getElem?_map, List.getElem?_range h]
  rfl

theorem cumVar_mono (mf : FittedSM) (hs : 0 ≤ mf.sigma2) (i : Nat) :
    cumVar mf i ≤ cumVar mf (i + 1) := by
  unfold cumVar
  have hr : List.range (i + 1 + 1) = List.range (i + 1) ++ [i + 1] := by
    rw [List.range_succ]
  rw [hr, List.map_append, List.sum_append]
  have hsq : 0 ≤ mf.psi (i + 1) ^ 2 := sq_nonneg _
  have hsg : (List.map (fun j => mf.psi j ^ 2) [i + 1]).sum = mf.psi (i + 1) ^ 2 := by
    simp
  rw [hsg]
  exact mul_le_mul_of_nonneg_left (le_add_of_nonneg_right hsq) hs

theorem se_mono (mf : FittedSM) (hw : SMWf mf) (i : Nat) :
    mf.se i ≤ mf.se (i + 1) := by
  have h1 := hw.se_nonneg i
  have h2 := hw.se_nonneg (i + 1)
  have h3 : mf.se i ^ 2 ≤ mf.se (i + 1) ^ 2 := by
    rw [hw.se_sq i, hw.se_sq (i + 1)]
    exact cumVar_mono mf hw.sigma2_nonneg i
  nlinarith

theorem inferColsAcc_stable (a b : String) (l : List RawCol)
    (h : ∀ c ∈ l, kwMatch c.name = false) :
    l.foldl inferColsAcc (some a, some b) = (some a, some b) := by
  induction l with
  | nil => rfl
  | cons c t ih =>
    have hc := h c (List.mem_cons_self c t)
    rw [List.foldl_cons]
    have hstep : inferColsAcc (some a, some b) c = (some a, some b) := by
      unfold inferColsAcc
      rw [hc]
      simp
    rw [hstep]
    exact ih (fun x hx => h x (List.mem_cons_of_mem c hx))

/-! ## Claim theorems -/

/-- C2: for every regularized series length `n`, the fitter uses
non-seasonal order (1,1,1); with at least 24 observations it additionally
uses seasonal order (1,1,1,period) with period = min(12, n / 2); with
fewer than 24 it fits without a seasonal component.  `specFor` is the
order selection of `train_model_and_predict` and `trainPredict` consults
the fit oracle exactly at `specFor` of the regularized length. -/
theorem c2_adaptive_order (n : Nat) :
    (specFor n).order = (1, 1, 1)
    ∧ (24 ≤ n → (specFor n).seasonal = some (1, 1, 1, min 12 (n / 2)))
    ∧ (n < 24 → (specFor n).seasonal = none) := by
  refine ⟨?_, fun h => ?_, fun h => ?_⟩
  · unfold specFor; split_ifs <;> rfl
  · unfold specFor; rw [if_pos h]
  · unfold specFor; rw [if_neg (by omega)]

/-- Witness for C2 at lengths 30 and 10. -/
theorem c2_adaptive_order_witness :
    (specFor 30).order = (1, 1, 1)
    ∧ (specFor 30).seasonal = some (1, 1, 1, 12)
    ∧ (specFor 10).seasonal = none := by
  refine ⟨(c2_adaptive_order 30).1, ?_, (c2_adaptive_order 10).2.2 (by omega)⟩
  have h := (c2_adaptive_order 30).2.1 (by omega)
  simpa using h

/-- C3: frequency inference prefers an exactly detected regular spacing
(the `pd.infer_freq` model); otherwise it classifies the floored median
day gap by the thresholds 1, 7, 31; and it always produces one of the
fixed frequency codes (it never fails). -/
theorem c3_frequency_inference (ds : List Date) :
    (∀ f, pdInferFreq ds = some f → inferredFreq ds = f)
    ∧ (pdInferFreq ds = none →
        inferredFreq ds
          = (if medianFloorDays (gapsDays ds) ≤ 1 then "D"
             else if medianFloorDays (gapsDays ds) ≤ 7 then "W"
             else if medianFloorDays (gapsDays ds) ≤ 31 then "MS" else "YS"))
    ∧ inferredFreq ds ∈ freqCodes := by
  refine ⟨?_, ?_, inferredFreq_mem ds⟩
  · intro f h
    unfold inferredFreq
    rw [h]
  · intro h
    unfold inferredFreq
    rw [h]
    rfl

/-- Witness for C3 on an irregular series with median gap 3 days. -/
theorem c3_frequency_inference_witness :
    pdInferFreq irregular4 = none ∧ inferredFreq irregular4 = "W" := by
  refine ⟨by decide, ?_⟩
  rw [(c3_frequency_inference irregular4).2.1 (by decide)]
  decide

/-- C5 (amended): in the upload path a rendering failure degrades to an
empty image (`generate_plot` catches it and returns the empty string), so
the already-computed forecast result keeps `success = true`; in the
bundled-model path, however, a rendering failure is caught by the
facade-level handler of `get_forecast_with_plot`, which replaces the whole
result with `{success: false, error}` — the request fails (without
crashing the process) instead of degrading. -/
theorem c5_plot_degradation (e : String) (st : ARIMASt) (steps : Nat) :
    customGeneratePlot (.error e) = ""
    ∧ (getForecastWithPlot st steps (.error e)).success = false := by
  refine ⟨rfl, ?_⟩
  obtain ⟨mo, da⟩ := st
  cases mo <;> cases da <;> rfl

/-- C5 counterexample: with a loaded model and a failing renderer, the
bundled path returns `success = false` (with the renderer failure as the
error), although the same state with a working renderer returns
`success = true`; so a chart failure does not degrade gracefully in the
bundled path. -/
theorem c5_counterexample :
    (getForecastWithPlot { model := some m0, data := some sundays10 } 3
      (.ok "img")).success = true
    ∧ (getForecastWithPlot { model := some m0, data := some sundays10 } 3
      (.error "render backend failure")).success = false
    ∧ (getForecastWithPlot { model := some m0, data := some sundays10 } 3
      (.error "render backend failure")).error = some "render backend failure"
    ∧ (getForecastWithPlot { model := some m0, data := some sundays10 } 3
      (.error "render backend failure")).predictions = none := by
  exact ⟨rfl, rfl, rfl, rfl⟩

/-- C7: after a failed load the facade is in the degraded state: every
forecast request returns `{success: false}` with an error message instead
of raising, and the status query reports the model as not loaded. -/
theorem c7_not_loaded_fails_fast (e : String) (steps : Nat) :
    (getForecastSvc (loadModel (.error e)) steps).success = false
    ∧ ((getForecastSvc (loadModel (.error e)) steps).error).isSome = true
    ∧ (getModelStatus (loadModel (.error e))).modelLoaded = false := by
  exact ⟨rfl, rfl, rfl⟩

/-- C9: forecasting twice from the same state with the same `steps` gives
the identical result and leaves the state identical — `predict` only
reads the model and data slots, so no hidden state advances between the
calls. -/
theorem c9_forecast_idempotent (st : ARIMASt) (steps : Nat) :
    predictSt (predictSt st steps).2 steps = predictSt st steps := by
  obtain ⟨mo, da⟩ := st
  cases mo <;> cases da <;> rfl

/-- C4 (amended): the schema scan keeps the LAST keyword-matching column
name as the time column (each match overwrites the previous one), and the
value column is the first numeric column among the columns whose names do
NOT match the lexicon (the `elif` excludes keyword-named columns), with
fallbacks to the first and second column.  Consequently, a table whose
first column is the only keyword-matching one and whose second column is
numeric selects exactly those two columns. -/
theorem c4_schema_selection (c1 c2 : RawCol) (rest : List RawCol)
    (h1 : kwMatch c1.name = true)
    (h2 : ∀ c ∈ c2 :: rest, kwMatch c.name = false)
    (h3 : numericDtype c2 = true) :
    inferCols ⟨c1 :: c2 :: rest⟩ = (c1.name, c2.name) := by
  have hc2 : kwMatch c2.name = false := h2 c2 (List.mem_cons_self c2 rest)
  have e1 : (c1 :: c2 :: rest).foldl inferColsAcc (none, none)
      = (some c1.name, some c2.name) := by
    rw [List.foldl_cons]
    have s1 : inferColsAcc (none, none) c1 = (some c1.name, none) := by
      unfold inferColsAcc
      rw [h1]
      simp
    rw [s1, List.foldl_cons]
    have s2 : inferColsAcc (some c1.name, none) c2 = (some c1.name, some c2.name) := by
      unfold inferColsAcc
      rw [hc2, h3]
      simp
    rw [s2]
    exact inferColsAcc_stable c1.name c2.name rest
      (fun c hc => h2 c (List.mem_cons_of_mem c2 hc))
  unfold inferCols
  rw [e1]
  rfl

/-- Witness for C4 (amended) on a two-column table. -/
theorem c4_schema_selection_witness :
    inferCols ⟨[colDate10, colSales10]⟩ = ("date", "sales") :=
  c4_schema_selection colDate10 colSales10 [] (by decide)
    (by intro c hc; fin_cases hc; decide) (by decide)

/-- C4 counterexample: `t0C4` has three columns and ten rows, its first
column is date-like (name `date`, date values) and its second column is
numeric, yet the scan selects `day2` — the last keyword-matching column
name — as the time column, not column 1. -/
theorem c4_counterexample :
    t0C4.cols.length = 3 ∧ nrows t0C4 = 10
    ∧ kwMatch "date" = true ∧ numericDtype colSales10 = true
    ∧ inferCols t0C4 = ("day2", "sales")
    ∧ ("day2" : String) ≠ "date" := by
  exact ⟨rfl, rfl, by decide, by decide, by decide, by decide⟩

/-- C8: upload validation leaves the model slot untouched, and every
table with fewer than 2 columns, or fewer than 10 rows before cleaning,
or fewer than 10 rows surviving conversion-and-dropna, is rejected with
`{success: false, error}` and the whole state (including the stored
series) unchanged — in particular before any fitting is attempted. -/
theorem c8_upload_validation (t : RawTable) (st : SvcState) :
    (validateCSV t st).2.model = st.model
    ∧ ((t.cols.length < 2 ∨ nrows t < 10
        ∨ (∃ rows, cleanedRows t = .ok rows ∧ rows.length < 10)) →
      (validateCSV t st).1.success = false
        ∧ ((validateCSV t st).1.error).isSome = true
        ∧ (validateCSV t st).2 = st) := by
  unfold validateCSV
  split_ifs with hcols hrows
  · exact ⟨rfl, fun _ => ⟨rfl, rfl, rfl⟩⟩
  · exact ⟨rfl, fun _ => ⟨rfl, rfl, rfl⟩⟩
  · cases hcl : cleanedRows t with
    | error e => exact ⟨rfl, fun _ => ⟨rfl, rfl, rfl⟩⟩
    | ok rows =>
      dsimp only
      split_ifs with hlen
      · exact ⟨rfl, fun _ => ⟨rfl, rfl, rfl⟩⟩
      · refine ⟨rfl, fun h => ?_⟩
        rcases h with h | h | ⟨rows2, hr2, hl2⟩
        · omega
        · omega
        · injection hr2 with hr3
          subst hr3
          exact absurd hl2 hlen

/-- Witness for C8: an eight-row table is rejected with state unchanged. -/
theorem c8_upload_validation_witness :
    (validateCSV t8rows { data := none, model := none }).1.success = false
    ∧ ((validateCSV t8rows { data := none, model := none }).1.error).isSome = true
    ∧ (validateCSV t8rows { data := none, model := none }).2
        = { data := none, model := none } :=
  (c8_upload_validation t8rows { data := none, model := none }).2
    (Or.inr (Or.inl (by decide)))

/-- C10: `train_model_and_predict` reassigns the stored series to its
frequency-reindexed forward-filled version before fitting; when the fit
subsequently fails, the call returns `{success: false, error}` but the
stored series slot keeps the reindexed series — it is not restored to its
pre-call state. -/
theorem c10_fit_failure_frame (fitO : SpecOrd → Series → Except String FittedSM)
    (st : SvcState) (s rs : Series) (steps : Nat) (e : String)
    (hd : st.data = some s) (hlen : 3 ≤ s.length)
    (hreg : regularize (inferredFreq (s.map (fun p => p.1))) s = .ok rs)
    (hfit : fitO (specFor rs.length) rs = .error e) :
    (trainPredict fitO st steps).1.success = false
    ∧ ((trainPredict fitO st steps).1.error).isSome = true
    ∧ (trainPredict fitO st steps).2.data = some rs := by
  unfold trainPredict
  rw [hd]
  dsimp only
  rw [if_neg (by omega)]
  rw [hreg]
  dsimp only
  rw [hfit]
  exact ⟨rfl, rfl, rfl⟩

/-- Witness for C10: the daily series with a gap regularizes to eleven
rows; a failing fit leaves the reindexed (and different) series stored. -/
theorem c10_fit_failure_frame_witness :
    (trainPredict failFit { data := some dailyGap10, model := none } 5).1.success = false
    ∧ ((trainPredict failFit { data := some dailyGap10, model := none } 5).1.error).isSome = true
    ∧ (trainPredict failFit { data := some dailyGap10, model := none } 5).2.data
        = some dailyGap10Reg
    ∧ dailyGap10Reg ≠ dailyGap10 := by
  refine ⟨?_, ?_, ?_, by decide⟩
  · exact (c10_fit_failure_frame failFit _ dailyGap10 dailyGap10Reg 5 "LinAlgError"
      rfl (by decide) rfl rfl).1
  · exact (c10_fit_failure_frame failFit _ dailyGap10 dailyGap10Reg 5 "LinAlgError"
      rfl (by decide) rfl rfl).2.1
  · exact (c10_fit_failure_frame failFit _ dailyGap10 dailyGap10Reg 5 "LinAlgError"
      rfl (by decide) rfl rfl).2.2

/-- C6: every forecast output block built by the pipeline (both the upload
path and the bundled path assemble `mkPreds` over `futureDates`) has
dates, values, lower and upper confidence bounds all of length `steps`,
satisfies lower <= value <= upper at every step, and has non-decreasing
interval width in the horizon — given the well-formedness of the fitted
model (nonnegative variance and standard errors tied to the cumulative
psi-weight variance, as the spec describes the intervals). -/
theorem c6_forecast_invariants (mf : FittedSM) (f : String) (L : Date)
    (steps : Nat) (hw : SMWf mf) :
    (mkPreds mf steps (futureDates f L steps)).dates.length = steps
    ∧ (mkPreds mf steps (futureDates f L steps)).values.length = steps
    ∧ (mkPreds mf steps (futureDates f L steps)).lower_ci.length = steps
    ∧ (mkPreds mf steps (futureDates f L steps)).upper_ci.length = steps
    ∧ (∀ i, i < steps →
        (mkPreds mf steps (futureDates f L steps)).lower_ci.getD i 0
          ≤ (mkPreds mf steps (futureDates f L steps)).values.getD i 0
        ∧ (mkPreds mf steps (futureDates f L steps)).values.getD i 0
          ≤ (mkPreds mf steps (futureDates f L steps)).upper_ci.getD i 0)
    ∧ (∀ i, i + 1 < steps →
        (mkPreds mf steps (futureDates f L steps)).upper_ci.getD i 0
          - (mkPreds mf steps (futureDates f L steps)).lower_ci.getD i 0
        ≤ (mkPreds mf steps (futureDates f L steps)).upper_ci.getD (i + 1) 0
          - (mkPreds mf steps (futureDates f L steps)).lower_ci.getD (i + 1) 0) := by
  have hz : (0 : ℚ) ≤ zq := by norm_num [zq]
  refine ⟨?_, ?_, ?_, ?_, ?_, ?_⟩
  · unfold mkPreds futureDates
    exact dateRangeP_length _ _ _
  · simp [mkPreds]
  · simp [mkPreds]
  · simp [mkPreds]
  · intro i hi
    unfold mkPreds
    dsimp only
    rw [range_map_getD _ steps i hi, range_map_getD _ steps i hi,
      range_map_getD _ steps i hi]
    have hse := hw.se_nonneg i
    constructor
    · nlinarith
    · nlinarith
  · intro i hi
    unfold mkPreds
    dsimp only
    rw [range_map_getD _ steps i (by omega), range_map_getD _ steps i (by omega),
      range_map_getD _ steps (i + 1) hi, range_map_getD _ steps (i + 1) hi]
    have hmono := se_mono mf hw i
    nlinarith

/-- Witness for C6 with the trivial well-formed model at three steps. -/
theorem c6_forecast_invariants_witness :
    (mkPreds m0 3 (futureDates "MS" ⟨2020, 1, 1⟩ 3)).dates.length = 3
    ∧ (mkPreds m0 3 (futureDates "MS" ⟨2020, 1, 1⟩ 3)).values.length = 3
    ∧ (mkPreds m0 3 (futureDates "MS" ⟨2020, 1, 1⟩ 3)).lower_ci.length = 3
    ∧ (mkPreds m0 3 (futureDates "MS" ⟨2020, 1, 1⟩ 3)).upper_ci.length = 3
    ∧ (∀ i, i < 3 →
        (mkPreds m0 3 (futureDates "MS" ⟨2020, 1, 1⟩ 3)).lower_ci.getD i 0
          ≤ (mkPreds m0 3 (futureDates "MS" ⟨2020, 1, 1⟩ 3)).values.getD i 0
        ∧ (mkPreds m0 3 (futureDates "MS" ⟨2020, 1, 1⟩ 3)).values.getD i 0
          ≤ (mkPreds m0 3 (futureDates "MS" ⟨2020, 1, 1⟩ 3)).upper_ci.getD i 0)
    ∧ (∀ i, i + 1 < 3 →
        (mkPreds m0 3 (futureDates "MS" ⟨2020, 1, 1⟩ 3)).upper_ci.getD i 0
          - (mkPreds m0 3 (futureDates "MS" ⟨2020, 1, 1⟩ 3)).lower_ci.getD i 0
        ≤ (mkPreds m0 3 (futureDates "MS" ⟨2020, 1, 1⟩ 3)).upper_ci.getD (i + 1) 0
          - (mkPreds m0 3 (futureDates "MS" ⟨2020, 1, 1⟩ 3)).lower_ci.getD (i + 1) 0) :=
  c6_forecast_invariants m0 "MS" ⟨2020, 1, 1⟩ 3
    ⟨by norm_num [m0], fun i => le_refl 0, fun i => by simp [m0, cumVar]⟩

theorem dateRangeP_headOpt (g : Grid) (start : Date) (n : Nat)
    (hg : onGrid g start) (hn : 0 < n) :
    (dateRangeP g start n).head? = some start := by
  unfold dateRangeP
  rw [rollForward_onGrid g start hg]
  cases n with
  | zero => omega
  | succ k => rfl

/-- C1 (amended): whenever the frequency string used by the date builder
is one of the four heuristic codes `D`, `W`, `MS`, `YS` (always the case
when the median-gap fallback chose the frequency) and the last regularized
timestamp lies on that frequency grid, the forecast dates have length
exactly `steps`, the first date is exactly one frequency-unit after the
last timestamp (which is its immediate successor on the regularization
grid, hence no gap and no overlap), and consecutive forecast dates are
grid successors.  The length conclusion holds for every frequency string;
the first-date and contiguity conclusions fail for the anchored codes
`pd.infer_freq` returns on exactly-spaced weekly input (see the
counterexample). -/
theorem c1_forecast_dates (f : String) (L : Date) (steps : Nat)
    (hf : f = "D" ∨ f = "W" ∨ f = "MS" ∨ f = "YS")
    (hg : onGrid (gridOf f) L) (hv : ValidDate L) :
    (futureDates f L steps).length = steps
    ∧ (0 < steps → (futureDates f L steps).head? = some (unitAfter f L))
    ∧ unitAfter f L = gridNext (gridOf f) L
    ∧ dlt L (unitAfter f L)
    ∧ (∀ i x, i + 1 < steps →
        (futureDates f L steps).getD (i + 1) x
          = gridNext (gridOf f) ((futureDates f L steps).getD i x)) := by
  have key : unitAfter f L = gridNext (gridOf f) L
      ∧ onGrid (gridOf f) (unitAfter f L) := by
    rcases hf with hf | hf | hf | hf <;> subst hf
    · have e1 : gridOf "D" = .daily := by decide
      have e2 : unitAfter "D" L = addDaysN L 1 := by
        unfold unitAfter
        rw [if_pos rfl]
      rw [e1] at hg ⊢
      rw [e2]
      constructor
      · show addDaysN L 1 = succDay L
        unfold addDaysN
        exact Function.iterate_one succDay ▸ rfl
      · trivial
    · have e1 : gridOf "W" = .weekly 6 := by decide
      have e2 : unitAfter "W" L = addDaysN L 7 := by
        unfold unitAfter
        rw [if_neg (by decide), if_pos rfl]
      rw [e1] at hg ⊢
      simp only [onGrid] at hg
      have hwr : weekRoll 6 L = 0 := by
        unfold weekRoll
        rw [hg]
        decide
      rw [e2]
      constructor
      · simp [gridNext, hwr]
      · show wd (addDaysN L 7) = 6
        rw [wd_addDaysN L 7 hv, hg]
        decide
    · have e1 : gridOf "MS" = .monthStart := by decide
      have e2 : unitAfter "MS" L = addMonth1 L := by
        unfold unitAfter
        rw [if_neg (by decide), if_neg (by decide), if_pos rfl]
      rw [e1] at hg ⊢
      simp only [onGrid] at hg
      rw [e2, addMonth1_of_monthStart L hg]
      exact ⟨rfl, nextMS_onGrid L⟩
    · have e1 : gridOf "YS" = .yearStart := by decide
      have e2 : unitAfter "YS" L = addYear1 L := by
        unfold unitAfter
        rw [if_neg (by decide), if_neg (by decide), if_neg (by decide)]
      rw [e1] at hg ⊢
      simp only [onGrid] at hg
      rw [e2, addYear1_of_yearStart L hg]
      exact ⟨rfl, nextYS_onGrid L⟩
  obtain ⟨hu, hog⟩ := key
  refine ⟨?_, ?_, hu, ?_, ?_⟩
  · unfold futureDates
    exact dateRangeP_length _ _ _
  · intro hst
    unfold futureDates
    exact dateRangeP_headOpt _ _ _ hog hst
  · rw [hu]
    exact gridNext_dlt (gridOf f) L hv
  · intro i x hi
    unfold futureDates
    exact dateRangeP_chain _ _ x _ i hog hi

/-- Witness for C1 (amended): the heuristic weekly code over ten Sundays,
three steps ahead. -/
theorem c1_forecast_dates_witness :
    (futureDates "W" ⟨2020, 3, 8⟩ 3).length = 3
    ∧ (0 < 3 → (futureDates "W" ⟨2020, 3, 8⟩ 3).head?
        = some (unitAfter "W" ⟨2020, 3, 8⟩))
    ∧ unitAfter "W" ⟨2020, 3, 8⟩ = gridNext (gridOf "W") ⟨2020, 3, 8⟩
    ∧ dlt ⟨2020, 3, 8⟩ (unitAfter "W" ⟨2020, 3, 8⟩)
    ∧ (∀ i x, i + 1 < 3 →
        (futureDates "W" ⟨2020, 3, 8⟩ 3).getD (i + 1) x
          = gridNext (gridOf "W") ((futureDates "W" ⟨2020, 3, 8⟩ 3).getD i x)) :=
  c1_forecast_dates "W" ⟨2020, 3, 8⟩ 3 (Or.inr (Or.inl rfl)) (by decide) (by decide)

/-- C1 counterexample: over an exactly weekly (Sunday) regularized series,
`pd.infer_freq` yields `W-SUN`, which matches none of the branches
`freq == 'D' / 'W' / 'MS'`, so the date builder starts one YEAR after the
last timestamp (rolled to the next Sunday): the forecast succeeds, the
dates have length `steps`, but the first date is 2021-03-14 and not
2020-03-15 (one week after the last timestamp 2020-03-08) — not
contiguous with history. -/
theorem c1_counterexample :
    (trainPredict okFit { data := some sundays10, model := none } 3).1.success = true
    ∧ pdInferFreq (sundays10.map (fun p => p.1)) = some "W-SUN"
    ∧ ((trainPredict okFit { data := some sundays10, model := none } 3).1.predictions.map
        (fun p => p.dates.length)) = some 3
    ∧ ((trainPredict okFit { data := some sundays10, model := none } 3).1.predictions.map
        (fun p => p.dates.head?)) = some (some ⟨2021, 3, 14⟩)
    ∧ lastDate sundays10 = ⟨2020, 3, 8⟩
    ∧ addDaysN ⟨2020, 3, 8⟩ 7 = ⟨2020, 3, 15⟩
    ∧ ((⟨2021, 3, 14⟩ : Date) = (⟨2020, 3, 15⟩ : Date) → False) := by
  exact ⟨rfl, by decide, rfl, rfl, rfl, rfl, by decide⟩
